import Mathlib

/-!
# Verification of the pricing-dashboard row protocol (`src/app.py`)

A shallow embedding of the logic of `app.py`: the credential parse step,
the tabular view with its sheet-row-number offset, the category/search
filter engine, the mutation handlers (update, delete, add), and the CSV
and PDF export encoders.  Streamlit widget rendering is out of scope;
each handler is modelled as a pure function from its inputs (including
the outcome of the external gateway call) to the commands it issues, the
message it shows and the in-memory view it leaves behind.
-/

namespace PriceApp

/-- A spreadsheet cell value as it comes back from `get_all_records`:
either a number or a free-form string.  Numeric cells are modelled as
integers (the dollar amount); only the numeric/non-numeric distinction
matters to the formatting paths. -/
inductive CellVal where
  | num (n : Int)
  | str (s : String)
deriving DecidableEq, Repr

/-- Python `str()` of a cell value, as used when a row is stringified. -/
def cellText : CellVal → String
  | .num n => toString n
  | .str s => s

/-- One data row of the sheet, projected to the five visible columns
(`VISIBLE_COLUMNS`, line 10): Service Category, Item, Price (USD),
Turnaround Time, Notes. -/
structure ServiceRecord where
  category : String
  item : String
  price : CellVal
  turnaround : String
  notes : String
deriving DecidableEq, Repr

/-- The fixed `VISIBLE_COLUMNS` list (line 10 of `app.py`). -/
def visibleColumns : List String :=
  ["Service Category", "Item", "Price (USD)", "Turnaround Time", "Notes"]

/-- The full TableView: the DataFrame built from `get_all_records`,
an ordered sequence of records with the default 0-based range index. -/
abbrev TableView := List ServiceRecord

/-- A view entry as produced by `iterrows`: the pandas index label
paired with the record.  For the freshly loaded DataFrame the label of
the record at position `i` is `i`, and pandas filtering keeps labels. -/
def entries (view : TableView) : List (Nat × ServiceRecord) :=
  view.enum

/-- The computation `sheet_row_num = idx + 2` (line 117 of `app.py`): the sheet row
addressed for the entry, row 1 being the header. -/
def sheetRowNum (e : Nat × ServiceRecord) : Nat :=
  e.1 + 2

/-! ## Filter / search engine (lines 100–110) -/

/-- The category filter (lines 103–104): when the selected category is
not the sentinel `"All"`, keep the rows whose `Service Category` cell
equals it; otherwise leave the view alone. -/
def categoryFilter (selectedCat : String) (v : List (Nat × ServiceRecord)) :
    List (Nat × ServiceRecord) :=
  if selectedCat = "All" then v
  else v.filter (fun e => e.2.category == selectedCat)

/-- Python `str.lower`, character by character. -/
def pyLower (s : String) : String :=
  ⟨s.data.map Char.toLower⟩

/-- The check `startsList nd hs` is Python's "`hs` begins with `nd`" on char lists. -/
def startsList : List Char → List Char → Bool
  | [], _ => true
  | _ :: _, [] => false
  | a :: as, b :: bs => a == b && startsList as bs

/-- The check `occursList nd hs` is Python's `nd in hs` on char lists: `nd` occurs
as a contiguous run inside `hs` (the empty needle always occurs). -/
def occursList (nd : List Char) : List Char → Bool
  | [] => nd.isEmpty
  | c :: cs => startsList nd (c :: cs) || occursList nd cs

/-- Python's `needle in hay` on strings. -/
def strIn (needle hay : String) : Bool :=
  occursList needle.data hay.data

/-- The per-row search predicate (lines 108–109): the lowercased term
occurs in the lowercased `Item` cell or in the lowercased `Notes` cell. -/
def searchMatch (term : String) (r : ServiceRecord) : Bool :=
  strIn (pyLower term) (pyLower r.item) || strIn (pyLower term) (pyLower r.notes)

/-- The search filter (lines 106–110): an empty term is falsy in Python,
so the mask is only applied when the term is non-empty. -/
def searchFilter (term : String) (v : List (Nat × ServiceRecord)) :
    List (Nat × ServiceRecord) :=
  if term = "" then v
  else v.filter (fun e => searchMatch term e.2)

/-- The FilteredView shown by the page (lines 102–110): category filter
then search filter over the enumerated full view. -/
def filteredView (view : TableView) (selectedCat term : String) :
    List (Nat × ServiceRecord) :=
  searchFilter term (categoryFilter selectedCat (entries view))

/-! ## Substring specification

A specification-level reading of "is a substring of", used to state the
search-filter claim without appeal to the executable check. -/

/-- The needle `nd` occurs contiguously inside `hay`. -/
def IsSubstr (nd hay : String) : Prop :=
  ∃ p q, hay.data = p ++ nd.data ++ q

/-! ## Credential parse step (lines 74–79)

The uploaded blob is decoded to text and then passed to Python's `eval`
(line 76: `json_dict = eval(json_data)`).  We embed the fragment of the
Python expression grammar that distinguishes what is at stake: literal
structured data (what a strict JSON decoder accepts) versus expression
syntax such as `+`, which `eval` executes.  A service-account key is a
flat string-to-string object, so dict literals carry string entries. -/

/-- The parsed syntax of an uploaded blob, as Python's grammar sees it:
literals plus the binary `+` expression form. -/
inductive PyExpr where
  | intLit (n : Int)
  | strLit (s : String)
  | dictLit (es : List (String × String))
  | plusExpr (a b : PyExpr)
deriving DecidableEq, Repr

/-- A Python value resulting from evaluation. -/
inductive PyVal where
  | int (n : Int)
  | str (s : String)
  | dict (es : List (String × String))
deriving DecidableEq, Repr

/-- Python `eval` on the embedded fragment: literals evaluate to
themselves and `+` is executed (integer addition / string
concatenation).  `none` is a raised evaluation error. -/
def pyEvalExpr : PyExpr → Option PyVal
  | .intLit n => some (.int n)
  | .strLit s => some (.str s)
  | .dictLit es => some (.dict es)
  | .plusExpr a b =>
    match pyEvalExpr a, pyEvalExpr b with
    | some (.int x), some (.int y) => some (.int (x + y))
    | some (.str x), some (.str y) => some (.str (x ++ y))
    | _, _ => none

/-- Whether the blob's syntax is an executable expression form rather
than a pure structured-data literal. -/
def isExecutableExpr : PyExpr → Bool
  | .plusExpr _ _ => true
  | _ => false

/-- A strict JSON decoder: accepts only structured-data literals and
rejects (without evaluating) any executable expression syntax. -/
def strictJsonDecode (blob : PyExpr) : Option PyVal :=
  if isExecutableExpr blob then none else pyEvalExpr blob

/-- The parse step of `main` (line 76): the blob goes through `eval`,
so every expression form Python accepts is executed. -/
def parseCredential (blob : PyExpr) : Option PyVal :=
  pyEvalExpr blob

/-! ## Gateway and mutation handlers (lines 49–58, 132–145, 158–166) -/

/-- A write command issued to the spreadsheet gateway, mirroring
`update_row` (a range update of the five cells of one row),
`add_service` (`worksheet.append_row(values)`) and `delete_row`
(`worksheet.delete_rows(n)`). -/
inductive GatewayCmd where
  | updateRange (rowNumber : Nat) (values : List CellVal)
  | appendRow (values : List CellVal)
  | deleteRows (rowNumber : Nat)
deriving DecidableEq, Repr

/-- The outcome of one synchronous gateway call: success, or a raised
exception carrying its message. -/
inductive GatewayResult where
  | ok
  | failure (msg : String)
deriving DecidableEq, Repr

/-- A message rendered to the user, mirroring `st.success`,
`st.warning` and `st.error`. -/
inductive UiMsg where
  | success (text : String)
  | warn (text : String)
  | errorMsg (text : String)
deriving DecidableEq, Repr

/-- What one mutation interaction leaves behind: the gateway commands
it issued, the message it rendered, and the in-memory full view and
filtered view after the handler ran. -/
structure MutationOutcome where
  issued : List GatewayCmd
  message : UiMsg
  dfAfter : TableView
  filteredAfter : List (Nat × ServiceRecord)
deriving Repr

/-- The update branch (lines 132–138): compute `sheet_row_num` from the
selected entry, issue one `update_row` call in a `try`, report success
or the caught exception; the DataFrames are not touched. -/
def updateHandler (df : TableView) (fv : List (Nat × ServiceRecord))
    (entry : Nat × ServiceRecord) (values : List CellVal)
    (res : GatewayResult) : MutationOutcome :=
  let rowNum := sheetRowNum entry
  { issued := [.updateRange rowNum values]
    message :=
      match res with
      | .ok => .success ("Row #" ++ toString rowNum ++
          " updated successfully. Please refresh to see changes.")
      | .failure e => .errorMsg ("Failed to update row " ++
          toString rowNum ++ ": " ++ e)
    dfAfter := df
    filteredAfter := fv }

/-- The delete branch (lines 140–145): one `delete_row` call at
`sheet_row_num` in a `try`, warning on success, caught error
otherwise; the DataFrames are not touched. -/
def deleteHandler (df : TableView) (fv : List (Nat × ServiceRecord))
    (entry : Nat × ServiceRecord) (res : GatewayResult) : MutationOutcome :=
  let rowNum := sheetRowNum entry
  { issued := [.deleteRows rowNum]
    message :=
      match res with
      | .ok => .warn ("Row #" ++ toString rowNum ++
          " deleted. Please refresh to update the view.")
      | .failure e => .errorMsg ("Failed to delete row " ++
          toString rowNum ++ ": " ++ e)
    dfAfter := df
    filteredAfter := fv }

/-- The add-service branch (lines 158–166): `if not new_category or not
new_item` report an error and issue nothing, else issue one
`append_row` with the five ordered fields in a `try`; the DataFrames
are not touched. -/
def addHandler (df : TableView) (fv : List (Nat × ServiceRecord))
    (newCategory newItem : String) (newPrice : CellVal)
    (newTurnaround newNotes : String) (res : GatewayResult) :
    MutationOutcome :=
  if newCategory = "" ∨ newItem = "" then
    { issued := []
      message := .errorMsg "Service Category and Item are required."
      dfAfter := df
      filteredAfter := fv }
  else
    { issued := [.appendRow [.str newCategory, .str newItem, newPrice,
        .str newTurnaround, .str newNotes]]
      message :=
        match res with
        | .ok => .success
            "Service added successfully! Please refresh the app to see the latest data."
        | .failure e => .errorMsg ("Failed to add service: " ++ e)
      dfAfter := df
      filteredAfter := fv }

/-! ## Row-identity reconciliation as the spec words it (§4.1)

The code resolves a selection to `idx + 2` directly (`sheetRowNum`).
The spec instead describes a scan of the full TableView for the first
record matching the selection's (category, item).  The following
definition follows the spec's words, for comparison with the code. -/

/-- Modelled from the spec (§4.1 lookup-by-record), for refinement
comparison with `sheetRowNum`: scan the full TableView for records
whose (category, item) equals the selection's, take the first match in
load order, return its index + 2; `none` when there is no match. -/
def specResolveByRecord (view : TableView) (r : ServiceRecord) : Option Nat :=
  ((entries view).find? fun e =>
    e.2.category == r.category && e.2.item == r.item).map
    fun e => e.1 + 2

/-! ## CSV export (line 173: `filtered_df.to_csv(index=False)`)

`to_csv` writes the header then one line per row, comma-delimited with
minimal quoting: a cell is wrapped in double quotes exactly when its
text contains a comma, a double quote, or a line-break character, and
embedded double quotes are doubled.  A standard CSV reader is embedded
as a character-level state machine so the round-trip can be stated. -/

/-- The characters that force a cell to be quoted under minimal
quoting: the delimiter, the quote char, and line-break characters. -/
def csvSpecialChar (c : Char) : Bool :=
  c == ',' || c == '"' || c == '\n' || c == '\r'

/-- Whether `to_csv` quotes this cell text. -/
def needsQuoting (s : String) : Bool :=
  s.data.any csvSpecialChar

/-- Double every double quote, as CSV quoting demands. -/
def escapeQuotes : List Char → List Char
  | [] => []
  | c :: cs =>
    if c = '"' then '"' :: '"' :: escapeQuotes cs
    else c :: escapeQuotes cs

/-- Serialize one cell: quoted with doubled quotes when needed,
verbatim otherwise. -/
def encodeField (s : String) : List Char :=
  if needsQuoting s then '"' :: (escapeQuotes s.data ++ ['"'])
  else s.data

/-- Serialize the cells of one line, comma-separated. -/
def encodeRowChars : List String → List Char
  | [] => []
  | [f] => encodeField f
  | f :: g :: fs => encodeField f ++ ',' :: encodeRowChars (g :: fs)

/-- Serialize lines, each terminated by a newline. -/
def csvEncodeRows : List (List String) → List Char
  | [] => []
  | r :: rs => encodeRowChars r ++ '\n' :: csvEncodeRows rs

/-- The cell texts of one record, in the fixed `VISIBLE_COLUMNS`
order, each cell stringified as `to_csv` writes it. -/
def rowStrings (r : ServiceRecord) : List String :=
  [r.category, r.item, cellText r.price, r.turnaround, r.notes]

/-- The CSV bytes of the download button (line 173): header row of the
five visible columns, then the filtered rows in order. -/
def csvExportChars (fv : List (Nat × ServiceRecord)) : List Char :=
  csvEncodeRows (visibleColumns :: fv.map fun e => rowStrings e.2)

/-- The mode of the CSV reader: outside quotes, inside quotes, or just
past a quote inside a quoted cell (the next char decides whether it was
an escaped quote or the closing quote). -/
inductive CsvMode where
  | normal
  | quoted
  | quoteSeen
deriving DecidableEq, Repr

/-- The CSV reader's running state: current mode, the cell being read,
the cells of the line being read, and the finished lines. -/
structure CsvState where
  mode : CsvMode
  field : List Char
  row : List (List Char)
  out : List (List (List Char))
deriving DecidableEq, Repr

/-- One step of the CSV reader on the next character. -/
def csvStep (st : CsvState) (c : Char) : CsvState :=
  match st.mode with
  | .normal =>
    if c = ',' then
      { st with field := [], row := st.row ++ [st.field] }
    else if c = '\n' then
      { mode := .normal, field := [], row := [],
        out := st.out ++ [st.row ++ [st.field]] }
    else if c == '"' && st.field.isEmpty then
      { st with mode := .quoted }
    else
      { st with field := st.field ++ [c] }
  | .quoted =>
    if c = '"' then { st with mode := .quoteSeen }
    else { st with field := st.field ++ [c] }
  | .quoteSeen =>
    if c = '"' then
      { st with mode := .quoted, field := st.field ++ [c] }
    else if c = ',' then
      { mode := .normal, field := [], row := st.row ++ [st.field],
        out := st.out }
    else if c = '\n' then
      { mode := .normal, field := [], row := [],
        out := st.out ++ [st.row ++ [st.field]] }
    else
      { st with mode := .normal, field := st.field ++ [c] }

/-- The initial reader state. -/
def csvStart : CsvState :=
  { mode := .normal, field := [], row := [], out := [] }

/-- Parse CSV text into its lines of cells: run the state machine over
the characters and flush any unterminated final line. -/
def csvParseChars (cs : List Char) : List (List String) :=
  let st := cs.foldl csvStep csvStart
  let rows :=
    if st.mode = .normal ∧ st.field = [] ∧ st.row = [] then st.out
    else st.out ++ [st.row ++ [st.field]]
  rows.map fun r => r.map fun f => (⟨f⟩ : String)

/-! ## PDF export (`export_pdf`, lines 27–46, called at line 177)

Rendering geometry (column widths, page breaks) is out of scope; what
is kept is the text placed in each cell, and in particular the price
cell, built with the Python fixed-point format code .2f at line 42,
which raises a ValueError when the cell value is a string.  `Except` carries the
raised error; the call at line 177 sits outside any `try`, so the
error propagates out of the export path instead of being converted to
a user-visible message as the mutation handlers do. -/

/-- The price cell text at line 42: a dollar sign followed by the value
under the fixed-point format code .2f, so numbers format to two
decimals and strings raise a ValueError. -/
def formatPrice2f : CellVal → Except String String
  | .num n => .ok ("$" ++ toString n ++ ".00")
  | .str _ => .error "Unknown format code f for object of type str"

/-- The cell texts of one PDF table line (lines 40–44). -/
def pdfRowCells (r : ServiceRecord) : Except String (List String) :=
  (formatPrice2f r.price).map fun p =>
    [r.category, r.item, p, r.turnaround, r.notes]

/-- The body of `export_pdf`: the header line then one line per record; the first
record with a non-numeric price raises. -/
def export_pdf (fv : List (Nat × ServiceRecord)) :
    Except String (List (List String)) := do
  let rows ← fv.mapM fun e => pdfRowCells e.2
  pure (visibleColumns :: rows)

/-- The artifacts the export section produces. -/
structure ExportArtifacts where
  csvChars : List Char
  pdfLines : List (List String)
deriving DecidableEq, Repr

/-- The export section of `main` (lines 172–178): build the CSV bytes,
then call `export_pdf` with no surrounding `try`/`except`. -/
def exportSection (fv : List (Nat × ServiceRecord)) :
    Except String ExportArtifacts := do
  let pdf ← export_pdf fv
  pure { csvChars := csvExportChars fv, pdfLines := pdf }

/-! ## Concrete fixtures

The duplicate-identity scenario of §8 item 7 of the design notes: two
records sharing (category, item) at sheet rows 2 and 3. -/

/-- First record of the duplicate scenario (sheet row 2). -/
def dupRecA : ServiceRecord :=
  { category := "Consulting", item := "Audit", price := .num 100,
    turnaround := "3 days", notes := "rush" }

/-- Second record of the duplicate scenario (sheet row 3), same
(category, item) as the first. -/
def dupRecB : ServiceRecord :=
  { category := "Consulting", item := "Audit", price := .num 150,
    turnaround := "5 days", notes := "" }

/-- The duplicate-identity TableView. -/
def dupView : TableView := [dupRecA, dupRecB]

/-- An uploaded blob that is a Python arithmetic expression, not JSON. -/
def exprBlob : PyExpr := .plusExpr (.intLit 2) (.intLit 2)

/-- A one-row view whose price cell holds a non-numeric string. -/
def badPriceView : List (Nat × ServiceRecord) :=
  [(0, { category := "Consulting", item := "Audit", price := .str "N/A",
         turnaround := "3 days", notes := "" })]

/-- The mode the CSV reader is in right after consuming one encoded
cell: just past the closing quote when the cell was quoted, plain
otherwise. -/
def fieldEndMode (f : String) : CsvMode :=
  if needsQuoting f then .quoteSeen else .normal

/-! # Theorems -/

/-! ## Substring characterization of the executable search check -/

theorem startsList_iff (nd hs : List Char) :
    startsList nd hs = true ↔ ∃ rest, hs = nd ++ rest := by
  induction nd generalizing hs with
  | nil => simp [startsList]
  | cons a as ih =>
    cases hs with
    | nil => simp [startsList]
    | cons b bs =>
      simp only [startsList, Bool.and_eq_true, beq_iff_eq, ih]
      constructor
      · rintro ⟨rfl, rest, rfl⟩
        exact ⟨rest, rfl⟩
      · rintro ⟨rest, h⟩
        cases h
        exact ⟨rfl, rest, rfl⟩

theorem occursList_iff (nd hs : List Char) :
    occursList nd hs = true ↔ ∃ p q, hs = p ++ nd ++ q := by
  induction hs with
  | nil =>
    simp only [occursList, List.isEmpty_iff]
    constructor
    · rintro rfl
      exact ⟨[], [], rfl⟩
    · rintro ⟨p, q, h⟩
      rcases List.append_eq_nil.mp h.symm with ⟨hpn, hq⟩
      exact (List.append_eq_nil.mp hpn).2
  | cons c cs ih =>
    simp only [occursList, Bool.or_eq_true, startsList_iff, ih]
    constructor
    · rintro (⟨rest, h⟩ | ⟨p, q, h⟩)
      · exact ⟨[], rest, by simpa using h⟩
      · exact ⟨c :: p, q, by simp [h]⟩
    · rintro ⟨p, q, h⟩
      cases p with
      | nil => exact Or.inl ⟨q, by simpa using h⟩
      | cons x xs =>
        right
        simp only [List.cons_append] at h
        exact ⟨xs, q, (List.cons_eq_cons.mp h).2⟩

theorem strIn_iff (nd hay : String) : strIn nd hay = true ↔ IsSubstr nd hay :=
  occursList_iff nd.data hay.data

/-! ## Claims -/

/-- C1: the claim says the credential upload is parsed with a strict,
non-executing JSON parser.  The code (line 76) instead passes the blob
through `eval`: on the blob `2+2` — executable expression syntax, not
JSON — the parse step evaluates it to `4`, while a strict JSON decoder
rejects it without evaluating anything.  This contradicts the spec's
normative sentence, so it is a bug in the code, witnessed here. -/
theorem C1_parse_step_executes_expressions :
    isExecutableExpr exprBlob = true ∧
    parseCredential exprBlob = some (PyVal.int 4) ∧
    strictJsonDecode exprBlob = none := by
  decide

/-- C2 counterexample: the claim says resolving a selected record scans
the full TableView for the first (category, item) match, so that with
duplicates at sheet rows 2 and 3 both selections resolve to row 2.  The
code resolves the selection at index 1 of the duplicate view to row 3,
not 2 (it uses the selected entry's own index, performing no scan); the
first-match scan worded by the spec would indeed give 2. -/
theorem C2_second_duplicate_resolves_to_row_3 :
    sheetRowNum ((entries dupView).get ⟨1, by decide⟩) = 3 ∧
    ¬ sheetRowNum ((entries dupView).get ⟨1, by decide⟩) = 2 ∧
    specResolveByRecord dupView dupRecB = some 2 := by
  decide

/-- C2 (amended): resolving a selection uses the selected entry's own
original index in the full TableView — SheetRowNumber = index + 2, with
no (category, item) scan; in the duplicate scenario the first selection
resolves to row 2 and the second to row 3, so the resolved row depends
on which of the two rows the user selected. -/
theorem C2_resolution_uses_selected_index (view : TableView) (i : Nat)
    (h : i < (entries view).length) :
    sheetRowNum ((entries view).get ⟨i, h⟩) = i + 2 ∧
    sheetRowNum ((entries dupView).get ⟨0, by decide⟩) = 2 ∧
    sheetRowNum ((entries dupView).get ⟨1, by decide⟩) = 3 := by
  refine ⟨?_, by decide, by decide⟩
  have hfst : (entries view)[i].1 = i := by
    simp [entries, List.getElem_enum]
  simp [sheetRowNum, hfst]

/-- Witness for the amended C2 at the duplicate view's first entry. -/
theorem C2_resolution_uses_selected_index_witness :
    sheetRowNum ((entries dupView).get ⟨0, by decide⟩) = 0 + 2 ∧
    sheetRowNum ((entries dupView).get ⟨0, by decide⟩) = 2 ∧
    sheetRowNum ((entries dupView).get ⟨1, by decide⟩) = 3 :=
  C2_resolution_uses_selected_index dupView 0 (by decide)

/-- C3: for every loaded TableView the record at 0-based index `i`
carries SheetRowNumber `i + 2`, and both row-addressed mutation paths
(update and delete) issue their gateway command at exactly that row. -/
theorem C3_sheet_row_offset (view : TableView) (i : Nat)
    (h : i < (entries view).length) :
    sheetRowNum ((entries view).get ⟨i, h⟩) = i + 2 ∧
    ∀ (df : TableView) (fv : List (Nat × ServiceRecord))
      (values : List CellVal) (res : GatewayResult),
      (updateHandler df fv ((entries view).get ⟨i, h⟩) values res).issued =
        [GatewayCmd.updateRange (i + 2) values] ∧
      (deleteHandler df fv ((entries view).get ⟨i, h⟩) res).issued =
        [GatewayCmd.deleteRows (i + 2)] := by
  have hfst : (entries view)[i].1 = i := by
    simp [entries, List.getElem_enum]
  refine ⟨by simp [sheetRowNum, hfst], ?_⟩
  intro df fv values res
  exact ⟨by simp [updateHandler, sheetRowNum, hfst],
         by simp [deleteHandler, sheetRowNum, hfst]⟩

/-- Witness for C3 at index 1 of the duplicate view. -/
theorem C3_sheet_row_offset_witness :
    sheetRowNum ((entries dupView).get ⟨1, by decide⟩) = 1 + 2 ∧
    (updateHandler dupView [] ((entries dupView).get ⟨1, by decide⟩)
        [] GatewayResult.ok).issued = [GatewayCmd.updateRange (1 + 2) []] ∧
    (deleteHandler dupView [] ((entries dupView).get ⟨1, by decide⟩)
        GatewayResult.ok).issued = [GatewayCmd.deleteRows (1 + 2)] := by
  have h := C3_sheet_row_offset dupView 1 (by decide)
  exact ⟨h.1, h.2 dupView [] [] GatewayResult.ok⟩

/-- C4: every record surviving the category filter and the search
filter keeps its original position: a surviving entry `e` still points
at the record stored at index `e.1` of the full TableView, and the
sheet row a mutation issued from the filtered view would target is
that original index + 2 — filtering never renumbers. -/
theorem C4_filter_preserves_row_mapping (view : TableView)
    (cat term : String) (e : Nat × ServiceRecord)
    (he : e ∈ filteredView view cat term) :
    view[e.1]? = some e.2 ∧ sheetRowNum e = e.1 + 2 := by
  have h1 : e ∈ categoryFilter cat (entries view) := by
    unfold filteredView searchFilter at he
    split at he
    · exact he
    · exact List.mem_of_mem_filter he
  have h2 : e ∈ entries view := by
    unfold categoryFilter at h1
    split at h1
    · exact h1
    · exact List.mem_of_mem_filter h1
  exact ⟨List.mem_enum_iff_getElem?.mp h2, rfl⟩

/-- Witness for C4: the second duplicate record survives an "All" +
empty-search filtering and still maps to index 1, sheet row 3. -/
theorem C4_filter_preserves_row_mapping_witness :
    dupView[(1 : Nat)]? = some dupRecB ∧ sheetRowNum (1, dupRecB) = 1 + 2 :=
  C4_filter_preserves_row_mapping dupView "All" "" (1, dupRecB) (by decide)

/-- C5: filtering by the sentinel category "All" is the identity on
the view, and filtering by any other category keeps exactly the
entries whose category cell is string-equal to it. -/
theorem C5_category_filter_exact (v : List (Nat × ServiceRecord))
    (cat : String) (e : Nat × ServiceRecord) :
    categoryFilter "All" v = v ∧
    (cat ≠ "All" →
      (e ∈ categoryFilter cat v ↔ e ∈ v ∧ e.2.category = cat)) := by
  refine ⟨by simp [categoryFilter], fun hcat => ?_⟩
  rw [categoryFilter, if_neg hcat, List.mem_filter]
  simp

/-- Witness for C5 on the duplicate view with category "Consulting". -/
theorem C5_category_filter_exact_witness :
    categoryFilter "All" (entries dupView) = entries dupView ∧
    ((0, dupRecA) ∈ categoryFilter "Consulting" (entries dupView) ↔
      (0, dupRecA) ∈ entries dupView ∧ dupRecA.category = "Consulting") := by
  have h := C5_category_filter_exact (entries dupView) "Consulting" (0, dupRecA)
  exact ⟨h.1, h.2 (by decide)⟩

/-- C6: an entry survives the search filter exactly when the
lowercased term occurs as a substring of the lowercased Item cell or
of the lowercased Notes cell; searching with the empty term leaves the
view unchanged. -/
theorem C6_search_filter_substring (v : List (Nat × ServiceRecord))
    (term : String) (e : Nat × ServiceRecord) :
    (e ∈ searchFilter term v ↔
      e ∈ v ∧ (IsSubstr (pyLower term) (pyLower e.2.item) ∨
               IsSubstr (pyLower term) (pyLower e.2.notes))) ∧
    searchFilter "" v = v := by
  refine ⟨?_, by simp [searchFilter]⟩
  by_cases hterm : term = ""
  · subst hterm
    rw [searchFilter, if_pos rfl]
    have hsub : IsSubstr (pyLower "") (pyLower e.2.item) :=
      ⟨[], (pyLower e.2.item).data, by simp [pyLower]⟩
    simp [hsub]
  · rw [searchFilter, if_neg hterm, List.mem_filter]
    simp [searchMatch, strIn_iff]

/-- Witness for C6: the first duplicate record survives the search for
"rush" (its notes cell contains it). -/
theorem C6_search_filter_substring_witness :
    ((0, dupRecA) ∈ searchFilter "rush" (entries dupView) ↔
      (0, dupRecA) ∈ entries dupView ∧
        (IsSubstr (pyLower "rush") (pyLower dupRecA.item) ∨
         IsSubstr (pyLower "rush") (pyLower dupRecA.notes))) ∧
    searchFilter "" (entries dupView) = entries dupView :=
  C6_search_filter_substring (entries dupView) "rush" (0, dupRecA)

/-- C8: the add handler issues a gateway append exactly when both the
category and the item are non-empty; the append carries the five
ordered fields, and when either field is empty nothing is issued and
the required-fields error is reported instead. -/
theorem C8_add_requires_category_and_item (df : TableView)
    (fv : List (Nat × ServiceRecord)) (cat item : String)
    (price : CellVal) (turn notes : String) (res : GatewayResult) :
    ((addHandler df fv cat item price turn notes res).issued ≠ [] ↔
      cat ≠ "" ∧ item ≠ "") ∧
    (cat = "" ∨ item = "" →
      (addHandler df fv cat item price turn notes res).issued = [] ∧
      (addHandler df fv cat item price turn notes res).message =
        UiMsg.errorMsg "Service Category and Item are required.") ∧
    (cat ≠ "" → item ≠ "" →
      (addHandler df fv cat item price turn notes res).issued =
        [GatewayCmd.appendRow [CellVal.str cat, CellVal.str item, price,
          CellVal.str turn, CellVal.str notes]]) := by
  by_cases hc : cat = "" ∨ item = ""
  · have hni : ¬(cat ≠ "" ∧ item ≠ "") := by
      rintro ⟨h1, h2⟩
      rcases hc with h | h
      · exact h1 h
      · exact h2 h
    refine ⟨?_, fun _ => ?_, fun h1 h2 => ?_⟩
    · simp [addHandler, if_pos hc, hni]
    · simp [addHandler, if_pos hc]
    · rcases hc with h | h
      · exact absurd h h1
      · exact absurd h h2
  · push_neg at hc
    refine ⟨?_, fun hor => ?_, fun _ _ => ?_⟩
    · simp [addHandler, hc.1, hc.2]
    · rcases hor with h | h
      · exact absurd h hc.1
      · exact absurd h hc.2
    · simp [addHandler, hc.1, hc.2]

/-- Witness for C8: empty item blocks the append; both fields present
issue it. -/
theorem C8_add_requires_category_and_item_witness :
    ((addHandler dupView [] "Consulting" "" (CellVal.num 10) "1 day" ""
        GatewayResult.ok).issued ≠ [] ↔
      "Consulting" ≠ "" ∧ "" ≠ "") ∧
    (addHandler dupView [] "Consulting" "" (CellVal.num 10) "1 day" ""
        GatewayResult.ok).issued = [] ∧
    (addHandler dupView [] "Consulting" "" (CellVal.num 10) "1 day" ""
        GatewayResult.ok).message =
      UiMsg.errorMsg "Service Category and Item are required." := by
  have h := C8_add_requires_category_and_item dupView [] "Consulting" ""
    (CellVal.num 10) "1 day" "" GatewayResult.ok
  exact ⟨h.1, h.2.1 (Or.inr rfl)⟩

/-- C9: when the gateway call raises, each mutation handler catches it
at the call site and reports it as an error message; exactly one (or,
for a blocked add, zero) gateway call is issued — no retry — and the
full view and the filtered view are left exactly as they were.  The
handlers are total functions into `MutationOutcome`, so no failure
escapes as a crash. -/
theorem C9_gateway_failures_caught (df : TableView)
    (fv : List (Nat × ServiceRecord)) (entry : Nat × ServiceRecord)
    (values : List CellVal) (cat item : String) (price : CellVal)
    (turn notes : String) (e : String) :
    ((updateHandler df fv entry values (.failure e)).dfAfter = df ∧
     (updateHandler df fv entry values (.failure e)).filteredAfter = fv ∧
     (updateHandler df fv entry values (.failure e)).issued.length = 1 ∧
     (updateHandler df fv entry values (.failure e)).message =
       UiMsg.errorMsg ("Failed to update row " ++
         toString (sheetRowNum entry) ++ ": " ++ e)) ∧
    ((deleteHandler df fv entry (.failure e)).dfAfter = df ∧
     (deleteHandler df fv entry (.failure e)).filteredAfter = fv ∧
     (deleteHandler df fv entry (.failure e)).issued.length = 1 ∧
     (deleteHandler df fv entry (.failure e)).message =
       UiMsg.errorMsg ("Failed to delete row " ++
         toString (sheetRowNum entry) ++ ": " ++ e)) ∧
    ((addHandler df fv cat item price turn notes (.failure e)).dfAfter = df ∧
     (addHandler df fv cat item price turn notes (.failure e)).filteredAfter
       = fv ∧
     (addHandler df fv cat item price turn notes (.failure e)).issued.length
       ≤ 1 ∧
     (cat ≠ "" → item ≠ "" →
       (addHandler df fv cat item price turn notes (.failure e)).message =
         UiMsg.errorMsg ("Failed to add service: " ++ e))) := by
  refine ⟨⟨rfl, rfl, rfl, rfl⟩, ⟨rfl, rfl, rfl, rfl⟩, ?_, ?_, ?_, ?_⟩
  · unfold addHandler
    split <;> rfl
  · unfold addHandler
    split <;> rfl
  · unfold addHandler
    split <;> simp
  · intro h1 h2
    simp [addHandler, h1, h2]

/-- Witness for C9 on concrete failing calls against the duplicate
view. -/
theorem C9_gateway_failures_caught_witness :
    ((updateHandler dupView [] (0, dupRecA) [] (.failure "boom")).dfAfter
        = dupView ∧
     (updateHandler dupView [] (0, dupRecA) [] (.failure "boom")).filteredAfter
        = [] ∧
     (updateHandler dupView [] (0, dupRecA) [] (.failure "boom")).issued.length
        = 1 ∧
     (updateHandler dupView [] (0, dupRecA) [] (.failure "boom")).message =
       UiMsg.errorMsg ("Failed to update row " ++
         toString (sheetRowNum (0, dupRecA)) ++ ": " ++ "boom")) ∧
    ((deleteHandler dupView [] (0, dupRecA) (.failure "boom")).dfAfter
        = dupView ∧
     (deleteHandler dupView [] (0, dupRecA) (.failure "boom")).filteredAfter
        = [] ∧
     (deleteHandler dupView [] (0, dupRecA) (.failure "boom")).issued.length
        = 1 ∧
     (deleteHandler dupView [] (0, dupRecA) (.failure "boom")).message =
       UiMsg.errorMsg ("Failed to delete row " ++
         toString (sheetRowNum (0, dupRecA)) ++ ": " ++ "boom")) ∧
    ((addHandler dupView [] "Tax" "Filing" (CellVal.num 50) "2 days" ""
        (.failure "boom")).dfAfter = dupView ∧
     (addHandler dupView [] "Tax" "Filing" (CellVal.num 50) "2 days" ""
        (.failure "boom")).filteredAfter = [] ∧
     (addHandler dupView [] "Tax" "Filing" (CellVal.num 50) "2 days" ""
        (.failure "boom")).issued.length ≤ 1 ∧
     (addHandler dupView [] "Tax" "Filing" (CellVal.num 50) "2 days" ""
        (.failure "boom")).message =
       UiMsg.errorMsg ("Failed to add service: " ++ "boom")) := by
  have h := C9_gateway_failures_caught dupView [] (0, dupRecA) [] "Tax"
    "Filing" (CellVal.num 50) "2 days" "" "boom"
  exact ⟨h.1, h.2.1,
    h.2.2.1, h.2.2.2.1, h.2.2.2.2.1,
    h.2.2.2.2.2 (by decide) (by decide)⟩

/-- C10: the PDF export is partial in the price cell.  On a view whose
single record has the non-numeric price "N/A" the `:.2f` format
raises, and the export section (which has no `try`) propagates the
error; the same pipeline succeeds when the price is numeric, so the
failure is precisely the non-numeric case. -/
theorem C10_pdf_export_partial_in_price :
    export_pdf badPriceView =
      Except.error "Unknown format code f for object of type str" ∧
    exportSection badPriceView =
      Except.error "Unknown format code f for object of type str" ∧
    exportSection [(0, dupRecA)] =
      Except.ok { csvChars := csvExportChars [(0, dupRecA)]
                  pdfLines := [visibleColumns,
                    ["Consulting", "Audit", "$100.00", "3 days", "rush"]] } := by
  refine ⟨rfl, rfl, ?_⟩
  rfl

/-! ## CSV round-trip lemmas -/

theorem foldl_escapeQuotes (cs acc : List Char) (row : List (List Char))
    (out : List (List (List Char))) :
    List.foldl csvStep ⟨.quoted, acc, row, out⟩ (escapeQuotes cs) =
      ⟨.quoted, acc ++ cs, row, out⟩ := by
  induction cs generalizing acc with
  | nil => simp [escapeQuotes]
  | cons c cs ih =>
    by_cases hc : c = '"'
    · subst hc
      rw [escapeQuotes, if_pos rfl, List.foldl_cons, List.foldl_cons]
      have h1 : csvStep ⟨.quoted, acc, row, out⟩ '"' =
          ⟨.quoteSeen, acc, row, out⟩ := by
        simp [csvStep]
      have h2 : csvStep ⟨.quoteSeen, acc, row, out⟩ '"' =
          ⟨.quoted, acc ++ ['"'], row, out⟩ := by
        simp [csvStep]
      rw [h1, h2, ih]
      simp
    · rw [escapeQuotes, if_neg hc, List.foldl_cons]
      have h1 : csvStep ⟨.quoted, acc, row, out⟩ c =
          ⟨.quoted, acc ++ [c], row, out⟩ := by
        simp [csvStep, hc]
      rw [h1, ih]
      simp

theorem foldl_plainChars (cs : List Char) (acc : List Char)
    (row : List (List Char)) (out : List (List (List Char)))
    (h : ∀ c ∈ cs, csvSpecialChar c = false) :
    List.foldl csvStep ⟨.normal, acc, row, out⟩ cs =
      ⟨.normal, acc ++ cs, row, out⟩ := by
  induction cs generalizing acc with
  | nil => simp
  | cons c cs ih =>
    have hspec := h c (List.mem_cons_self c cs)
    simp only [csvSpecialChar, Bool.or_eq_false_iff,
      beq_eq_false_iff_ne, ne_eq] at hspec
    obtain ⟨⟨⟨h1, h2⟩, h3⟩, h4⟩ := hspec
    rw [List.foldl_cons]
    have hstep : csvStep ⟨.normal, acc, row, out⟩ c =
        ⟨.normal, acc ++ [c], row, out⟩ := by
      simp [csvStep, h1, h2, h3]
    rw [hstep, ih (acc ++ [c]) fun d hd => h d (List.mem_cons_of_mem c hd)]
    simp

theorem foldl_encodeField (f : String) (row : List (List Char))
    (out : List (List (List Char))) :
    List.foldl csvStep ⟨.normal, [], row, out⟩ (encodeField f) =
      ⟨fieldEndMode f, f.data, row, out⟩ := by
  by_cases hq : needsQuoting f = true
  · rw [encodeField, if_pos hq, fieldEndMode, if_pos hq, List.foldl_cons]
    have h1 : csvStep ⟨.normal, [], row, out⟩ '"' =
        ⟨.quoted, [], row, out⟩ := by
      simp [csvStep]
    rw [h1, List.foldl_append, foldl_escapeQuotes]
    simp [csvStep]
  · rw [encodeField, if_neg hq, fieldEndMode, if_neg hq]
    have hall : ∀ c ∈ f.data, csvSpecialChar c = false := by
      intro c hc
      by_contra hcc
      exact hq (List.any_eq_true.mpr
        ⟨c, hc, by simpa using Bool.of_not_eq_false hcc⟩)
    simpa using foldl_plainChars f.data [] row out hall

theorem foldl_field_then_comma (f : String) (row : List (List Char))
    (out : List (List (List Char))) (rest : List Char) :
    List.foldl csvStep ⟨.normal, [], row, out⟩
        (encodeField f ++ ',' :: rest) =
      List.foldl csvStep ⟨.normal, [], row ++ [f.data], out⟩ rest := by
  rw [List.foldl_append, foldl_encodeField, List.foldl_cons]
  by_cases hq : needsQuoting f = true <;>
    simp [fieldEndMode, hq, csvStep]

theorem foldl_field_then_newline (f : String) (row : List (List Char))
    (out : List (List (List Char))) (rest : List Char) :
    List.foldl csvStep ⟨.normal, [], row, out⟩
        (encodeField f ++ '\n' :: rest) =
      List.foldl csvStep ⟨.normal, [], [], out ++ [row ++ [f.data]]⟩
        rest := by
  rw [List.foldl_append, foldl_encodeField, List.foldl_cons]
  by_cases hq : needsQuoting f = true <;>
    simp [fieldEndMode, hq, csvStep]

theorem foldl_encodeRow (fs : List String) (hfs : fs ≠ [])
    (row : List (List Char)) (out : List (List (List Char)))
    (rest : List Char) :
    List.foldl csvStep ⟨.normal, [], row, out⟩
        (encodeRowChars fs ++ '\n' :: rest) =
      List.foldl csvStep
        ⟨.normal, [], [], out ++ [row ++ fs.map String.data]⟩ rest := by
  induction fs generalizing row with
  | nil => exact absurd rfl hfs
  | cons f fs ih =>
    cases fs with
    | nil =>
      rw [encodeRowChars, foldl_field_then_newline]
      simp
    | cons g gs =>
      rw [encodeRowChars, List.append_assoc, List.cons_append,
        foldl_field_then_comma, ih (by simp) (row ++ [f.data])]
      simp

theorem foldl_encodeRows (rows : List (List String))
    (h : ∀ r ∈ rows, r ≠ []) (out : List (List (List Char))) :
    List.foldl csvStep ⟨.normal, [], [], out⟩ (csvEncodeRows rows) =
      ⟨.normal, [], [], out ++ rows.map fun r => r.map String.data⟩ := by
  induction rows generalizing out with
  | nil => simp [csvEncodeRows]
  | cons r rs ih =>
    rw [csvEncodeRows,
      foldl_encodeRow r (h r (List.mem_cons_self r rs)) [] out
        (csvEncodeRows rs),
      ih (fun s hs => h s (List.mem_cons_of_mem r hs))]
    simp

theorem csvParse_encode (rows : List (List String))
    (h : ∀ r ∈ rows, r ≠ []) :
    csvParseChars (csvEncodeRows rows) = rows := by
  unfold csvParseChars
  rw [show csvStart = (⟨.normal, [], [], []⟩ : CsvState) from rfl,
    foldl_encodeRows rows h []]
  simp [List.map_map, Function.comp_def]

/-- C7: the CSV download serializes exactly the header of the five
visible columns followed by the filtered rows' cells in that fixed
order, and a standard CSV reader recovers from those bytes precisely
the header and the (category, item, price-as-written, turnaround,
notes) tuples, in the same order. -/
theorem C7_csv_export_roundtrip (fv : List (Nat × ServiceRecord)) :
    csvExportChars fv =
      csvEncodeRows (visibleColumns :: fv.map fun e => rowStrings e.2) ∧
    csvParseChars (csvExportChars fv) =
      visibleColumns :: fv.map fun e => rowStrings e.2 := by
  refine ⟨rfl, ?_⟩
  apply csvParse_encode
  intro r hr
  rcases List.mem_cons.mp hr with rfl | hr
  · simp [visibleColumns]
  · rcases List.mem_map.mp hr with ⟨e, _, rfl⟩
    simp [rowStrings]

end PriceApp
